import Mathlib

/-!
Verification of the handler layer of an SMTP server (`aiosmtpd/handlers.py`):
the `Debugging`, `Proxy` (relay) and `Message` handlers.  The Python source is
shallowly embedded: byte/character sequences are `List Char` / `List Nat`,
Python's `splitlines` is modelled explicitly, exceptions become `Except` /
`Option` results, and the network outcomes of the relay's delivery attempt are
abstract inputs to the embedded `_deliver` control flow.
-/

namespace Handlers

/-- A peer network address: host and port, as carried in `session.peer`.
Modelled from the spec: the Session data model is defined outside the
source file under verification ("peer (originating network address, tuple
of host and port)"). -/
abbrev Peer := String × Nat

/-- Modelled from the spec: per-connection context with attribute `peer`. -/
structure Session where
  peer : Peer

/-- Modelled from the spec: a mail address plus an ordered sequence of
protocol-extension option strings attached to that address. -/
structure Address where
  address : String
  options : List String

/-- The representation of `envelope.content`: a byte sequence, a decoded text
string, or a value of some other (unexpected) type, identified by the name of
its type.  Bytes are byte values, text is a character sequence. -/
inductive PyContent where
  | bytes (b : List Nat)
  | str (s : List Char)
  | other (typeName : String)
deriving DecidableEq, Repr

/-- Modelled from the spec: one mail transaction, with the sender
address-with-options, the ordered recipient addresses-with-options, and the
content.  The recipient sequence is exposed under the attribute name
`rcpt_tos`, the name used by the source file itself at its lines 80 and 109. -/
structure Envelope where
  mail_from : Address
  rcpt_tos : List Address
  content : PyContent

/-- Python attribute lookup on an envelope for attributes holding a list of
addresses.  Modelled from the spec: the envelope data model (defined outside
the source file) has exactly one recipient-sequence attribute, `rcpt_tos`;
looking up any other name fails (Python `AttributeError`). -/
def Envelope.getattrAddrList (e : Envelope) (name : String) : Option (List Address) :=
  if name = "rcpt_tos" then some e.rcpt_tos else none

/-! ### Python `repr` / `str` rendering of peers and option lists

Modelled from the spec: these reproduce the Python builtins used by the
source (`'{!r}'.format`, `str()`, `print` of a list).  Control-character
escaping inside `repr` of a string is not modelled (peer hosts and option
keywords are plain printable text in this layer). -/

/-- One character of a Python-`repr`'d string, given the chosen quote. -/
def pyReprStrChar (q c : Char) : String :=
  if c = '\\' then "\\\\"
  else if c = q then String.mk ['\\', q]
  else String.mk [c]

/-- Python `repr` of a string: single quotes, switching to double quotes when
the string contains a single quote but no double quote. -/
def pyReprString (s : String) : String :=
  let q := if s.data.contains '\'' && !s.data.contains '"' then '"' else '\''
  String.mk [q] ++ String.join (s.data.map (pyReprStrChar q)) ++ String.mk [q]

/-- Python `repr` of a `(host, port)` tuple. -/
def pyReprPeer (p : Peer) : String :=
  "(" ++ pyReprString p.1 ++ ", " ++ toString p.2 ++ ")"

/-- Python `str` of a `(host, port)` tuple.  `tuple` defines no `__str__`, so
`str` falls back to `__repr__`: this is the same rendering as `pyReprPeer`. -/
def pyStrPeer (p : Peer) : String :=
  pyReprPeer p

/-- Python `repr`/`str` of a list of strings, as printed by `print(options)`. -/
def pyReprStringList (xs : List String) : String :=
  "[" ++ String.intercalate ", " (xs.map pyReprString) ++ "]"

/-! ### Python `splitlines`

`bytes.splitlines` breaks at `\n`, `\r`, `\r\n`; `str.splitlines` additionally
breaks at `\v`, `\f`, `\x1c`, `\x1d`, `\x1e`, `\x85`, `\u2028`, `\u2029`.
The splitter is generic over the element type and the break predicate. -/

/-- Line-break characters of Python `str.splitlines`. -/
def strBreak (c : Char) : Bool :=
  c = '\n' || c = '\r' || c = '\x0b' || c = '\x0c' ||
  c.toNat = 28 || c.toNat = 29 || c.toNat = 30 || c.toNat = 133 ||
  c.toNat = 8232 || c.toNat = 8233

/-- Line-break byte values of Python `bytes.splitlines`. -/
def byteBreak (b : Nat) : Bool :=
  b = 10 || b = 13

/-- Python `splitlines`, generic in the element type: `isBrk` recognizes break
elements, `cr`/`lf` are the carriage-return and line-feed elements (so that
`cr lf` counts as a single break), `keep` is the `keepends` flag. -/
def pySplitlines {α : Type} [DecidableEq α] (isBrk : α → Bool) (cr lf : α)
    (keep : Bool) : List α → List (List α)
  | [] => []
  | c :: cs =>
    if isBrk c then
      if c = cr then
        match cs with
        | [] => [if keep then [c] else []]
        | d :: ds =>
          if d = lf then
            (if keep then [c, d] else []) :: pySplitlines isBrk cr lf keep ds
          else
            (if keep then [c] else []) :: pySplitlines isBrk cr lf keep (d :: ds)
      else
        (if keep then [c] else []) :: pySplitlines isBrk cr lf keep cs
    else
      match pySplitlines isBrk cr lf keep cs with
      | [] => [[c]]
      | l :: ls => (c :: l) :: ls

/-- `str.splitlines` on a character sequence. -/
def strSplitlines (keep : Bool) (s : List Char) : List (List Char) :=
  pySplitlines strBreak '\r' '\n' keep s

/-- `bytes.splitlines` on a byte sequence. -/
def bytesSplitlines (keep : Bool) (b : List Nat) : List (List Nat) :=
  pySplitlines byteBreak 13 10 keep b

/-- Index of the first element of a list satisfying `p`, if any. -/
def firstIdxP {β : Type} (p : β → Bool) : List β → Option Nat
  | [] => none
  | x :: xs => if p x then some 0 else (firstIdxP p xs).map (· + 1)

/-! ### Module-level constants of the source file -/

/-- `COMMASPACE = ', '` -/
def COMMASPACE : String := ", "

/-- `CRLF = '\r\n'`, as a character sequence. -/
def CRLFl : List Char := ['\r', '\n']

/-! ### The `Proxy` (relay) handler: content rewriting (`handle_DATA`) -/

/-- `NLCRE.match(line)` where `NLCRE = re.compile('\r\n|\r|\n')`: a regex
`match` anchors at the start, so it succeeds exactly when the line begins with
a carriage return or a line feed. -/
def nlcreMatch : List Char → Bool
  | [] => false
  | c :: _ => c = '\r' || c = '\n'

/-- The scan loop of `Proxy.handle_DATA` (lines 100-106): walk the
`keepends`-split lines counting `i`, stopping at the first line matched by
`NLCRE`; `ending` is that line (default `CRLF` when the scan exhausts all
lines). Returns `(i, ending)`. -/
def proxyScan : List (List Char) → Nat × List Char
  | [] => (0, CRLFl)
  | l :: ls =>
    if nlcreMatch l then (0, l)
    else ((proxyScan ls).1 + 1, (proxyScan ls).2)

/-- The synthetic header line `'X-Peer: %s%s' % (session.peer[0], ending)`. -/
def proxyHeaderLine (peerHost : String) (ending : List Char) : List Char :=
  ("X-Peer: " ++ peerHost).data ++ ending

/-- Python `list.insert(i, x)` for `i ≤ len` (the only use here). -/
def insertAt {α : Type} (i : Nat) (x : α) (l : List α) : List α :=
  l.take i ++ x :: l.drop i

/-- The content rewriting of `Proxy.handle_DATA` (lines 98-108): split the
content keeping line endings, scan for the first `NLCRE`-matched line, insert
the synthetic `X-Peer` header line there, and join everything back. -/
def proxy_rewrite (peerHost : String) (content : List Char) : List Char :=
  let lines := strSplitlines true content
  let i := (proxyScan lines).1
  let ending := (proxyScan lines).2
  (insertAt i (proxyHeaderLine peerHost ending) lines).flatten

/-! ### The `Debugging` handler -/

/-- `_format_peer(peer)`: `'X-Peer: {!r}'.format(peer)`. -/
def _format_peer (peer : Peer) : String :=
  "X-Peer: " ++ pyReprPeer peer

/-- One byte of `bytes.decode('utf-8', 'replace')`.  Modelled from the spec:
the decoder is an external library routine; it is modelled byte-wise (exact
on ASCII, a replacement character otherwise); no claim observes the decoding
of multi-byte sequences. -/
def decodeByte (b : Nat) : Char :=
  if b < 128 then Char.ofNat b else '�'

/-- `line.decode('utf-8', 'replace')`, modelled byte-wise. -/
def decodeBytes (b : List Nat) : String :=
  String.mk (b.map decodeByte)

/-- The printing loop of `Debugging._print_message_content` (lines 58-67):
`inHeaders` is the `in_headers` flag; on the first empty line while still in
the headers, the formatted peer line is printed before it, and the flag is
cleared.  `dec` decodes a raw line to the printed text. -/
def printLoop {β : Type} (peerLine : String) (isEmp : β → Bool)
    (dec : β → String) (inHeaders : Bool) : List β → List String
  | [] => []
  | l :: ls =>
    if inHeaders && isEmp l then
      peerLine :: dec l :: printLoop peerLine isEmp dec false ls
    else
      dec l :: printLoop peerLine isEmp dec inHeaders ls

/-- `Debugging._print_message_content(peer, data)` as the list of printed
lines.  `data.splitlines()` dispatches on the runtime type of the content;
on a content that is neither bytes nor text the attribute lookup fails and
the exception propagates (`none`). -/
def _print_message_content (peer : Peer) : PyContent → Option (List String)
  | .bytes b =>
    some (printLoop (_format_peer peer) (·.isEmpty) decodeBytes true
      (bytesSplitlines false b))
  | .str s =>
    some (printLoop (_format_peer peer) (·.isEmpty) (fun l => String.mk l) true
      (strSplitlines false s))
  | .other _ => none

/-- One iteration of the `for rcpt in envelope.rcpt_tos` loop of
`Debugging.handle_DATA` (lines 80-83), on the accumulated printed lines and
the `add_separator` flag. -/
def debugOptStep (acc : List String × Bool) (rcpt : Address) : List String × Bool :=
  if rcpt.options.isEmpty then acc
  else (acc.1 ++ ["rcpt options: " ++ pyReprStringList rcpt.options], true)

/-- `Debugging.handle_DATA(session, envelope)` as the list of printed lines
(lines 70-87): the banner, the options summaries with the `add_separator`
flag, the message content, the end banner. -/
def debugging_handle_DATA (session : Session) (envelope : Envelope) :
    Option (List String) :=
  (_print_message_content session.peer envelope.content).map (fun content =>
    let init : List String × Bool :=
      if envelope.mail_from.options.isEmpty then ([], false)
      else (["mail options: " ++ pyReprStringList envelope.mail_from.options], true)
    let folded := envelope.rcpt_tos.foldl debugOptStep init
    ["---------- MESSAGE FOLLOWS ----------"]
      ++ folded.1
      ++ (if folded.2 then [""] else [])
      ++ content
      ++ ["------------ END MESSAGE ------------"])

/-! ### The `Message` handler: `prepare_message` -/

/-- Python exceptions surfaced by `prepare_message`. -/
inductive PyError where
  | assertionError (msg : String)
  | attributeError (name : String)
deriving DecidableEq, Repr

/-- A structured email message.  Modelled from the spec: the parser producing
it is an external library routine ("parse `envelope.content` into a structured
message"); the model records the source content it was parsed from, and the
headers appended afterwards, which is all the claims observe. -/
structure PyMessage where
  source : PyContent
  headers : List (String × String)
deriving DecidableEq, Repr

/-- `email.message_from_bytes(data)` (header parsing unobserved, see
`PyMessage`). -/
def message_from_bytes (b : List Nat) : PyMessage :=
  ⟨.bytes b, []⟩

/-- `email.message_from_string(data)` (header parsing unobserved, see
`PyMessage`). -/
def message_from_string (s : List Char) : PyMessage :=
  ⟨.str s, []⟩

/-- `message[k] = v`: the email message `__setitem__` appends a header. -/
def PyMessage.addHeader (m : PyMessage) (k v : String) : PyMessage :=
  ⟨m.source, m.headers ++ [(k, v)]⟩

/-- `Message.prepare_message(session, envelope)` (lines 154-168): parse the
content according to its runtime representation (asserting it is bytes or
text), then append the `X-Peer`, `X-MailFrom` and `X-RcptTo` headers.  The
recipient list is read through the attribute name `rcpttos` (line 167). -/
def prepare_message (session : Session) (envelope : Envelope) :
    Except PyError PyMessage :=
  let parsed : Except PyError PyMessage :=
    match envelope.content with
    | .bytes b => .ok (message_from_bytes b)
    | .str s => .ok (message_from_string s)
    | .other ty => .error (.assertionError ("Expected str or bytes, got " ++ ty))
  match parsed with
  | .error e => .error e
  | .ok m =>
    let m := m.addHeader "X-Peer" (pyStrPeer session.peer)
    let m := m.addHeader "X-MailFrom" envelope.mail_from.address
    match envelope.getattrAddrList "rcpttos" with
    | none => .error (.attributeError "rcpttos")
    | some rcpts =>
      .ok (m.addHeader "X-RcptTo"
        (String.intercalate COMMASPACE (rcpts.map Address.address)))

/-! ### The `Proxy` handler: `_deliver`

The network interactions of `smtplib` are abstract inputs: the outcome of
`connect`, of `sendmail` and of `quit`.  A refusal map is an association list
with Python `dict` insertion semantics. -/

/-- A refusal map: recipient address to (code, message). -/
abbrev RefMap := List (String × (Int × String))

/-- Exceptions of the `smtplib` calls as caught by `_deliver`:
`SMTPRecipientsRefused` carries its per-recipient map; any other caught
failure (`OSError` or another `SMTPException`) carries its `smtp_code` /
`smtp_error` attributes when it has them. -/
inductive SMTPExc where
  | recipientsRefused (recipients : RefMap)
  | smtpError (code : Option Int) (msg : Option String)
deriving DecidableEq, Repr

/-- Python `dict` assignment `m[k] = v` on an association list. -/
def dictSet (m : RefMap) (k : String) (v : Int × String) : RefMap :=
  if (m.map Prod.fst).contains k then
    m.map (fun p => if p.1 = k then (k, v) else p)
  else
    m ++ [(k, v)]

/-- The keys of a refusal map. -/
def refusalKeys (m : RefMap) : List String :=
  m.map Prod.fst

/-- The loop of the generic `except` clause (lines 132-135): assign every
originally requested recipient the exception's code and message, with the
sentinel `-1` and the placeholder `'ignore'` when the exception does not
expose them (`getattr` defaults). -/
def allRefusedUpdate (m : RefMap) (rcpt_tos : List String)
    (code : Option Int) (msg : Option String) : RefMap :=
  rcpt_tos.foldl (fun acc r => dictSet acc r (code.getD (-1), msg.getD "ignore")) m

/-- The two `except` clauses of `_deliver` (lines 124-135), applied to the
refusal map bound at the time the exception surfaces. -/
def handleExc (refused : RefMap) (e : SMTPExc) (rcpt_tos : List String) : RefMap :=
  match e with
  | .recipientsRefused recipients => recipients
  | .smtpError code msg => allRefusedUpdate refused rcpt_tos code msg

/-- `Proxy._deliver(mail_from, rcpt_tos, data)` (lines 115-136) as a function
of the abstract outcomes of the three `smtplib` calls.  `refused` starts as
the empty dict; `connect` failing skips the inner `try`, so `quit` never runs;
`sendmail`'s result is bound to `refused` before `quit` runs in the `finally`;
an exception raised by `quit` replaces any exception in flight. -/
def _deliver (connectR : Except SMTPExc Unit) (sendR : Except SMTPExc RefMap)
    (quitR : Except SMTPExc Unit) (mail_from : String) (rcpt_tos : List String)
    (data : List Char) : RefMap :=
  match connectR with
  | .error e => handleExc [] e rcpt_tos
  | .ok _ =>
    match sendR with
    | .ok m =>
      match quitR with
      | .ok _ => m
      | .error e2 => handleExc m e2 rcpt_tos
    | .error e1 =>
      match quitR with
      | .ok _ => handleExc [] e1 rcpt_tos
      | .error e2 => handleExc [] e2 rcpt_tos

/-! ### Blank lines and terminator styles (claim-level vocabulary) -/

/-- A blank line: a line consisting solely of a recognized line terminator
(`\r\n`, `\r` or `\n`). -/
def isBlankLine (l : List Char) : Bool :=
  decide (l = CRLFl ∨ l = ['\r'] ∨ l = ['\n'])

/-- The recognized terminator a line ends with, if any. -/
def recognizedTermOf (l : List Char) : Option (List Char) :=
  if l.getLast? = some '\n' then
    if l.dropLast.getLast? = some '\r' then some CRLFl else some ['\n']
  else if l.getLast? = some '\r' then some ['\r']
  else none

/-- Definition following the claim's words, for comparison with the code: the
terminator style of the first line of the split content that ends with a
recognized terminator. -/
def specFirstTerminatedStyle : List (List Char) → Option (List Char)
  | [] => none
  | l :: ls =>
    match recognizedTermOf l with
    | some t => some t
    | none => specFirstTerminatedStyle ls

/-! ### Lemmas about `pySplitlines` -/

section SplitLemmas

variable {α : Type} [DecidableEq α]

/-- Joining the `keepends`-split lines gives back the original sequence. -/
lemma pySplitlines_flatten (isBrk : α → Bool) (cr lf : α) (l : List α) :
    (pySplitlines isBrk cr lf true l).flatten = l := by
  induction l using pySplitlines.induct isBrk cr lf true with
  | case1 => simp [pySplitlines]
  | case2 hb => simp [pySplitlines, hb]
  | case3 ds hb ih => simp [pySplitlines, hb, ih]
  | case4 d ds hd hb ih => simp [pySplitlines, hb, hd, ih]
  | case5 d ds hb hc ih =>
    rw [pySplitlines.eq_def]
    simp [hb, hc, ih]
  | case6 d ds hb hS ih =>
    rw [hS] at ih
    simp only [List.flatten_nil] at ih
    subst ih
    rw [pySplitlines.eq_def]
    simp [pySplitlines, hb, hS]
  | case7 d ds hb l0 ls hS ih =>
    rw [hS] at ih
    simp only [List.flatten_cons] at ih
    rw [pySplitlines.eq_def]
    simp [hb, hS, ih]

/-- The shape of a line produced by the `keepends` splitter: break-free
content followed by a terminator (empty, `[cr, lf]`, or one break element). -/
def goodLine (isBrk : α → Bool) (cr lf : α) (line : List α) : Prop :=
  ∃ a t, line = a ++ t ∧ (∀ c ∈ a, isBrk c = false) ∧
    (t = [] ∨ t = [cr, lf] ∨ ∃ c, isBrk c = true ∧ t = [c])

lemma pySplitlines_good (isBrk : α → Bool) (cr lf : α) (l : List α) :
    ∀ line ∈ pySplitlines isBrk cr lf true l, goodLine isBrk cr lf line := by
  induction l using pySplitlines.induct isBrk cr lf true with
  | case1 => simp [pySplitlines]
  | case2 hb =>
    intro line hline
    simp [pySplitlines, hb] at hline
    exact ⟨[], [cr], by simp [hline], by simp, Or.inr (Or.inr ⟨cr, hb, rfl⟩)⟩
  | case3 ds hb ih =>
    intro line hline
    simp only [pySplitlines, hb, if_pos rfl, ite_true] at hline
    rcases List.mem_cons.mp hline with h | h
    · exact ⟨[], [cr, lf], by simp [h], by simp, Or.inr (Or.inl rfl)⟩
    · exact ih line h
  | case4 d ds hd hb ih =>
    intro line hline
    simp only [pySplitlines, hb, hd, if_pos rfl, ite_true, ite_false] at hline
    rcases List.mem_cons.mp hline with h | h
    · exact ⟨[], [cr], by simp [h], by simp, Or.inr (Or.inr ⟨cr, hb, rfl⟩)⟩
    · exact ih line h
  | case5 d ds hb hc ih =>
    intro line hline
    rw [pySplitlines.eq_def] at hline
    simp only [hb, hc, if_pos rfl, ite_true, ite_false, if_true, if_false] at hline
    rcases List.mem_cons.mp hline with h | h
    · exact ⟨[], [d], by simp [h], by simp, Or.inr (Or.inr ⟨d, hb, rfl⟩)⟩
    · exact ih line h
  | case6 d ds hb hS ih =>
    intro line hline
    rw [pySplitlines.eq_def] at hline
    simp only [hb, hS, ite_false, Bool.false_eq_true, if_false] at hline
    simp at hline
    exact ⟨[d], [], by simp [hline], by simp [hb], Or.inl rfl⟩
  | case7 d ds hb l0 ls hS ih =>
    intro line hline
    rw [pySplitlines.eq_def] at hline
    simp only [hb, hS, ite_false, Bool.false_eq_true, if_false] at hline
    rcases List.mem_cons.mp hline with h | h
    · obtain ⟨a, t, hat, hfree, hterm⟩ := ih l0 (by rw [hS]; exact List.mem_cons_self _ _)

      refine ⟨d :: a, t, by simp [h, hat], ?_, hterm⟩
      intro x hx
      rcases List.mem_cons.mp hx with hx | hx
      · subst hx; simpa using hb
      · exact hfree x hx
    · exact ih line (by rw [hS]; exact List.mem_cons_of_mem _ h)

end SplitLemmas

/-- On a well-shaped line of `str.splitlines(keepends=True)`, the `NLCRE`
prefix match recognizes exactly the blank lines. -/
lemma nlcre_eq_isBlank (line : List Char)
    (h : goodLine strBreak '\r' '\n' line) :
    nlcreMatch line = isBlankLine line := by
  obtain ⟨a, t, hat, hfree, hterm⟩ := h
  match a with
  | x :: xs =>
    have hx : strBreak x = false := hfree x (List.mem_cons_self _ _)
    have hx1 : x ≠ '\r' := by intro h1; subst h1; simp [strBreak] at hx
    have hx2 : x ≠ '\n' := by intro h1; subst h1; simp [strBreak] at hx
    subst hat
    simp only [List.cons_append, nlcreMatch, isBlankLine, CRLFl]
    simp [hx1, hx2]
  | [] =>
    simp only [List.nil_append] at hat
    subst hat
    rcases hterm with h0 | h0 | ⟨c, hc, h0⟩ <;> subst h0
    · simp [nlcreMatch, isBlankLine, CRLFl]
    · simp [nlcreMatch, isBlankLine, CRLFl]
    · by_cases h1 : c = '\r'
      · subst h1; simp [nlcreMatch, isBlankLine, CRLFl]
      · by_cases h2 : c = '\n'
        · subst h2; simp [nlcreMatch, isBlankLine, CRLFl]
        · simp [nlcreMatch, isBlankLine, CRLFl, h1, h2]

/-- Every line of the relay's `keepends` split satisfies the `NLCRE` /
blank-line correspondence. -/
lemma strSplit_nlcre (content : List Char) :
    ∀ line ∈ strSplitlines true content, nlcreMatch line = isBlankLine line :=
  fun line hm =>
    nlcre_eq_isBlank line (pySplitlines_good strBreak '\r' '\n' content line hm)

/-- The scan of `Proxy.handle_DATA` stops at the first blank line: its index
is the first blank-line index (or the number of lines), and its `ending` is
that blank line itself (or `CRLF`). -/
lemma proxyScan_char (lines : List (List Char))
    (hall : ∀ line ∈ lines, nlcreMatch line = isBlankLine line) :
    (proxyScan lines).1 = (firstIdxP isBlankLine lines).getD lines.length ∧
    (proxyScan lines).2 = (match firstIdxP isBlankLine lines with
      | some j => lines[j]?.getD CRLFl
      | none => CRLFl) := by
  induction lines with
  | nil => simp [proxyScan, firstIdxP]
  | cons l ls ih =>
    have hm : nlcreMatch l = isBlankLine l := hall l (List.mem_cons_self _ _)
    have ihm := ih (fun x hx => hall x (List.mem_cons_of_mem _ hx))
    by_cases hb : isBlankLine l = true
    · simp [proxyScan, firstIdxP, hm, hb]
    · simp only [Bool.not_eq_true] at hb
      cases hF : firstIdxP isBlankLine ls with
      | none =>
        rw [hF] at ihm
        simp [proxyScan, firstIdxP, hm, hb, hF, ihm.1, ihm.2]
      | some j =>
        rw [hF] at ihm
        constructor
        · simp [proxyScan, firstIdxP, hm, hb, hF, ihm.1]
        · simp [proxyScan, firstIdxP, hm, hb, hF]
          simpa using ihm.2

/-- `proxy_rewrite` decomposed: the lines before the scan index, the
synthetic header line, the lines from the scan index on. -/
lemma proxy_rewrite_eq (host : String) (content : List Char) :
    proxy_rewrite host content =
      ((strSplitlines true content).take (proxyScan (strSplitlines true content)).1).flatten
        ++ proxyHeaderLine host (proxyScan (strSplitlines true content)).2
        ++ ((strSplitlines true content).drop (proxyScan (strSplitlines true content)).1).flatten := by
  unfold proxy_rewrite insertAt
  simp [List.flatten_append]

/-- Take-plus-drop of the split lines reassembles the original content. -/
lemma takeDrop_flatten_content (content : List Char) (i : Nat) :
    ((strSplitlines true content).take i).flatten
      ++ ((strSplitlines true content).drop i).flatten = content := by
  rw [← List.flatten_append, List.take_append_drop]
  exact pySplitlines_flatten strBreak '\r' '\n' content

/-! ### Lemmas about the `Debugging` printing loop -/

section PrintLoopLemmas

variable {β : Type} (pl : String) (ie : β → Bool) (dec : β → String)

lemma printLoop_false (ls : List β) :
    printLoop pl ie dec false ls = ls.map dec := by
  induction ls with
  | nil => simp [printLoop]
  | cons x xs ih => simp [printLoop, ih]

lemma firstIdxP_lt {p : β → Bool} :
    ∀ {ls : List β} {j : Nat}, firstIdxP p ls = some j → j < ls.length := by
  intro ls
  induction ls with
  | nil => intro j h; simp [firstIdxP] at h
  | cons x xs ih =>
    intro j h
    by_cases hx : p x = true
    · simp [firstIdxP, hx] at h
      simp only [List.length_cons]
      omega
    · simp [firstIdxP, hx] at h
      obtain ⟨j', hj', hj⟩ := h
      have := ih hj'
      simp only [List.length_cons]
      omega

lemma printLoop_some :
    ∀ (ls : List β) (j : Nat), firstIdxP ie ls = some j →
      printLoop pl ie dec true ls =
        (ls.take j).map dec ++ pl :: (ls.drop j).map dec := by
  intro ls
  induction ls with
  | nil => intro j h; simp [firstIdxP] at h
  | cons x xs ih =>
    intro j h
    by_cases hx : ie x = true
    · simp [firstIdxP, hx] at h
      subst h
      simp [printLoop, hx, printLoop_false]
    · simp [firstIdxP, hx] at h
      obtain ⟨j', hj', hj⟩ := h
      subst hj
      simp [printLoop, hx, ih j' hj']

lemma printLoop_none :
    ∀ ls : List β, firstIdxP ie ls = none →
      printLoop pl ie dec true ls = ls.map dec := by
  intro ls
  induction ls with
  | nil => intro h; simp [printLoop]
  | cons x xs ih =>
    intro h
    by_cases hx : ie x = true
    · simp [firstIdxP, hx] at h
    · simp [firstIdxP, hx] at h
      simp [printLoop, hx, ih h]

lemma printLoop_length (ls : List β) :
    (printLoop pl ie dec true ls).length =
      ls.length + (match firstIdxP ie ls with | some _ => 1 | none => 0) := by
  cases hF : firstIdxP ie ls with
  | none => simp [printLoop_none pl ie dec ls hF]
  | some j =>
    have hj : j < ls.length := firstIdxP_lt hF
    rw [printLoop_some pl ie dec ls j hF]
    simp only [List.length_append, List.length_map, List.length_cons,
      List.length_take, List.length_drop]
    omega

end PrintLoopLemmas

/-! ### Lemmas about the `Debugging` options block -/

/-- Whether any address of the envelope carries options (the final value of
the `add_separator` flag). -/
def hasOptions (e : Envelope) : Bool :=
  !e.mail_from.options.isEmpty || e.rcpt_tos.any (fun r => !r.options.isEmpty)

/-- The summary line contributed by one recipient, if it has options. -/
def debugOptSummary (r : Address) : Option String :=
  if r.options.isEmpty then none
  else some ("rcpt options: " ++ pyReprStringList r.options)

/-- The options-summary lines of `Debugging.handle_DATA`, characterized
declaratively: one `mail options:` line when the sender has options, then one
`rcpt options:` line per recipient with options. -/
def debugSummaries (e : Envelope) : List String :=
  (if e.mail_from.options.isEmpty then []
   else ["mail options: " ++ pyReprStringList e.mail_from.options])
  ++ e.rcpt_tos.filterMap debugOptSummary

lemma debug_fold_eq (rcpts : List Address) :
    ∀ acc : List String × Bool,
      rcpts.foldl debugOptStep acc =
        (acc.1 ++ rcpts.filterMap debugOptSummary,
          acc.2 || rcpts.any (fun r => !r.options.isEmpty)) := by
  induction rcpts with
  | nil => intro acc; simp
  | cons r rs ih =>
    intro acc
    by_cases hr : r.options.isEmpty = true
    · have hs : debugOptStep acc r = acc := by simp [debugOptStep, hr]
      have hf : debugOptSummary r = none := by simp [debugOptSummary, hr]
      rw [List.foldl_cons, hs, ih, List.filterMap_cons, hf, List.any_cons]
      simp [hr]
    · have hs : debugOptStep acc r =
          (acc.1 ++ ["rcpt options: " ++ pyReprStringList r.options], true) := by
        simp [debugOptStep, hr]
      have hf : debugOptSummary r =
          some ("rcpt options: " ++ pyReprStringList r.options) := by
        simp [debugOptSummary, hr]
      rw [List.foldl_cons, hs, ih, List.filterMap_cons, hf, List.any_cons]
      simp only [Bool.not_eq_true] at hr
      simp [hr]

/-- `Debugging.handle_DATA` in terms of the declarative options block. -/
lemma debugging_handle_DATA_eq (s : Session) (e : Envelope) :
    debugging_handle_DATA s e =
      (_print_message_content s.peer e.content).map (fun content =>
        "---------- MESSAGE FOLLOWS ----------"
          :: (debugSummaries e ++ (if hasOptions e then [""] else [])
              ++ content ++ ["------------ END MESSAGE ------------"])) := by
  unfold debugging_handle_DATA
  cases _print_message_content s.peer e.content with
  | none => simp
  | some content =>
    simp only [Option.map_some]
    congr 1
    rw [debug_fold_eq]
    by_cases hm : e.mail_from.options.isEmpty
    · simp [hm, debugSummaries, hasOptions]
    · simp [hm, debugSummaries, hasOptions]

lemma debugSummaries_nil_iff (e : Envelope) :
    debugSummaries e = [] ↔ hasOptions e = false := by
  unfold debugSummaries hasOptions
  by_cases hm : e.mail_from.options.isEmpty = true
  · simp only [hm, if_true, ite_true, List.nil_append, Bool.not_true, Bool.false_or]
    rw [List.filterMap_eq_nil_iff, List.any_eq_false]
    constructor
    · intro h r hr
      have h2 := h r hr
      by_cases ho : r.options.isEmpty = true
      · simp [ho]
      · simp [debugOptSummary, ho] at h2
    · intro h r hr
      have h2 := h r hr
      have ho : r.options.isEmpty = true := by
        cases hoo : r.options.isEmpty
        · rw [hoo] at h2; simp at h2
        · rfl
      simp [debugOptSummary, ho]
  · have hm2 : e.mail_from.options.isEmpty = false := by
      cases h : e.mail_from.options.isEmpty
      · rfl
      · exact absurd h hm
    simp [hm2]

/-! ### Lemmas about the refusal map -/

lemma keys_dictSet (m : RefMap) (k : String) (v : Int × String) :
    refusalKeys (dictSet m k v) =
      if (refusalKeys m).contains k then refusalKeys m else refusalKeys m ++ [k] := by
  unfold dictSet refusalKeys
  by_cases hc : (m.map Prod.fst).contains k
  · rw [if_pos hc, if_pos hc, List.map_map]
    apply List.map_congr_left
    intro p _
    by_cases hp : p.1 = k
    · simp [Function.comp, hp]
    · simp [Function.comp, hp]
  · rw [if_neg hc, if_neg hc, List.map_append]
    simp

lemma mem_keys_dictSet (m : RefMap) (k : String) (v : Int × String) (x : String) :
    x ∈ refusalKeys (dictSet m k v) ↔ x ∈ refusalKeys m ∨ x = k := by
  rw [keys_dictSet]
  by_cases hc : (refusalKeys m).contains k
  · rw [if_pos hc]
    have hk : k ∈ refusalKeys m := List.mem_of_elem_eq_true hc
    constructor
    · exact Or.inl
    · rintro (h | h)
      · exact h
      · subst h; exact hk
  · rw [if_neg hc]
    simp

lemma nodup_keys_dictSet (m : RefMap) (k : String) (v : Int × String)
    (h : (refusalKeys m).Nodup) : (refusalKeys (dictSet m k v)).Nodup := by
  rw [keys_dictSet]
  by_cases hc : (refusalKeys m).contains k
  · rw [if_pos hc]; exact h
  · rw [if_neg hc]
    have hk : k ∉ refusalKeys m := by
      intro hmem
      exact hc (List.elem_eq_true_of_mem hmem)
    simp [List.nodup_append, h, hk]

lemma val_dictSet (m : RefMap) (k : String) (v : Int × String) :
    ∀ p ∈ dictSet m k v, p = (k, v) ∨ p ∈ m := by
  intro p hp
  unfold dictSet at hp
  by_cases hc : (m.map Prod.fst).contains k
  · rw [if_pos hc] at hp
    obtain ⟨q, hq, hfq⟩ := List.mem_map.mp hp
    by_cases hqk : q.1 = k
    · left
      rw [← hfq]
      simp [hqk]
    · right
      rw [← hfq]
      simp only [hqk, ite_false, if_false]
      exact hq
  · rw [if_neg hc] at hp
    rcases List.mem_append.mp hp with h | h
    · right; exact h
    · left; simpa using h

lemma allRefusedUpdate_spec (code : Option Int) (msg : Option String) :
    ∀ (rcpts : List String) (acc : RefMap),
      (∀ p ∈ acc, p.2 = (code.getD (-1), msg.getD "ignore")) →
      (refusalKeys acc).Nodup →
      (∀ p ∈ allRefusedUpdate acc rcpts code msg,
          p.2 = (code.getD (-1), msg.getD "ignore")) ∧
      (refusalKeys (allRefusedUpdate acc rcpts code msg)).Nodup ∧
      (∀ x, x ∈ refusalKeys (allRefusedUpdate acc rcpts code msg) ↔
          x ∈ refusalKeys acc ∨ x ∈ rcpts) := by
  intro rcpts
  induction rcpts with
  | nil =>
    intro acc h1 h2
    refine ⟨?_, ?_, ?_⟩
    · simpa [allRefusedUpdate] using h1
    · simpa [allRefusedUpdate] using h2
    · intro x; simp [allRefusedUpdate]
  | cons r rs ih =>
    intro acc h1 h2
    have hstep : allRefusedUpdate acc (r :: rs) code msg =
        allRefusedUpdate (dictSet acc r (code.getD (-1), msg.getD "ignore")) rs code msg := by
      unfold allRefusedUpdate
      rw [List.foldl_cons]
    have hval : ∀ p ∈ dictSet acc r (code.getD (-1), msg.getD "ignore"),
        p.2 = (code.getD (-1), msg.getD "ignore") := by
      intro p hp
      rcases val_dictSet acc r (code.getD (-1), msg.getD "ignore") p hp with h | h
      · rw [h]
      · exact h1 p h
    have hnd := nodup_keys_dictSet acc r (code.getD (-1), msg.getD "ignore") h2
    obtain ⟨ih1, ih2, ih3⟩ := ih (dictSet acc r (code.getD (-1), msg.getD "ignore")) hval hnd
    refine ⟨by rw [hstep]; exact ih1, by rw [hstep]; exact ih2, ?_⟩
    intro x
    rw [hstep]
    rw [ih3 x, mem_keys_dictSet]
    constructor
    · rintro ((h | h) | h)
      · exact Or.inl h
      · exact Or.inr (by simp [h])
      · exact Or.inr (by simp [h])
    · rintro (h | h)
      · exact Or.inl (Or.inl h)
      · rcases List.mem_cons.mp h with h | h
        · exact Or.inl (Or.inr h)
        · exact Or.inr h

/-! ### Remaining helper lemmas -/

lemma list_isEmpty_eq_nil {α : Type} {l : List α} : l.isEmpty = true ↔ l = [] := by
  cases l <;> simp

lemma hasOptions_false_iff (e : Envelope) :
    hasOptions e = false ↔
      (e.mail_from.options = [] ∧ ∀ r ∈ e.rcpt_tos, r.options = []) := by
  unfold hasOptions
  rw [Bool.or_eq_false_iff]
  constructor
  · rintro ⟨h1, h2⟩
    constructor
    · have h3 : e.mail_from.options.isEmpty = true := by
        revert h1; cases e.mail_from.options.isEmpty <;> simp
      exact list_isEmpty_eq_nil.mp h3
    · intro r hr
      rw [List.any_eq_false] at h2
      have h4 := h2 r hr
      have h5 : r.options.isEmpty = true := by
        revert h4; cases r.options.isEmpty <;> simp
      exact list_isEmpty_eq_nil.mp h5
  · rintro ⟨h1, h2⟩
    refine ⟨by rw [h1]; rfl, ?_⟩
    rw [List.any_eq_false]
    intro r hr
    rw [h2 r hr]
    simp

lemma strSplitlines_flatten (content : List Char) :
    (strSplitlines true content).flatten = content :=
  pySplitlines_flatten strBreak '\r' '\n' content

/-! ### Claims -/

/-- C1: the claim states that for every session and envelope with bytes or
text content and a non-empty recipient list, `prepare_message` returns a
message whose `X-Peer`, `X-MailFrom` and `X-RcptTo` headers read back the
supplied values.  The code cannot do so: line 167 reads the recipient list
through the attribute name `rcpttos`, which the envelope data model does not
define (the rest of the file uses `rcpt_tos`), so `prepare_message` raises
`AttributeError` before returning.  This theorem evaluates the code at the
spec's own scenario input. -/
theorem c1_prepare_message_attribute_error :
    prepare_message ⟨("127.0.0.1", 2500)⟩
      ⟨⟨"a@x.com", []⟩, [⟨"b@x.com", []⟩, ⟨"c@x.com", []⟩],
        .str ("Subject: hi\r\n\r\nbody\r\n".data)⟩ =
      .error (.attributeError "rcpttos") := by
  rfl

/-- C2 (amended): the Relay rewrite preserves every original line exactly and
inserts the single `X-Peer` line, but the inserted line's terminator is the
first *blank* line itself (the line at the insertion point), defaulting to
`CRLF` when the content has no blank line - not the terminator style of the
first terminated line. -/
theorem c2_preservation_amended (host : String) (content : List Char) :
    proxy_rewrite host content =
      ((strSplitlines true content).take
          ((firstIdxP isBlankLine (strSplitlines true content)).getD
            (strSplitlines true content).length)).flatten
        ++ proxyHeaderLine host
            (match firstIdxP isBlankLine (strSplitlines true content) with
              | some j => (strSplitlines true content)[j]?.getD CRLFl
              | none => CRLFl)
        ++ ((strSplitlines true content).drop
            ((firstIdxP isBlankLine (strSplitlines true content)).getD
              (strSplitlines true content).length)).flatten ∧
    ((strSplitlines true content).take
        ((firstIdxP isBlankLine (strSplitlines true content)).getD
          (strSplitlines true content).length)).flatten
      ++ ((strSplitlines true content).drop
          ((firstIdxP isBlankLine (strSplitlines true content)).getD
            (strSplitlines true content).length)).flatten = content := by
  have hchar := proxyScan_char (strSplitlines true content) (strSplit_nlcre content)
  constructor
  · rw [proxy_rewrite_eq, hchar.1, hchar.2]
  · exact takeDrop_flatten_content content _

/-- C2 counterexample: for content `"a\nb"` the first terminated line is
`"a\n"` with style `LF`, but the code has found no blank line, so it inserts
the `X-Peer` line with the default `CRLF` terminator - refuting the claim
that the inserted terminator matches the first terminated line's style. -/
theorem c2_counterexample :
    specFirstTerminatedStyle (strSplitlines true ("a\nb".data)) = some ['\n'] ∧
    proxy_rewrite "relay.example.com" ("a\nb".data) =
      ("a\nbX-Peer: relay.example.com\r\n").data ∧
    ("a\nbX-Peer: relay.example.com\r\n").data ≠
      ("a\nbX-Peer: relay.example.com\n").data := by
  refine ⟨by decide, by decide, by decide⟩

/-- C3: on a general delivery failure (connection failure, or an exchange
error other than a per-recipient refusal) no exception escapes - `_deliver`
is total and returns a map - and the refusal map has exactly one entry per
originally requested recipient, each carrying the failure's code and message
when it exposes them and the sentinel `-1` with the placeholder `'ignore'`
otherwise. -/
theorem c3_general_failure_refusals (rcpts : List String) (code : Option Int)
    (msg : Option String) (sendR : Except SMTPExc RefMap)
    (quitR : Except SMTPExc Unit) (mail_from : String) (data : List Char) :
    ((refusalKeys (_deliver (.error (.smtpError code msg)) sendR quitR
        mail_from rcpts data)).Nodup ∧
      (∀ x, x ∈ refusalKeys (_deliver (.error (.smtpError code msg)) sendR quitR
          mail_from rcpts data) ↔ x ∈ rcpts) ∧
      (∀ p ∈ _deliver (.error (.smtpError code msg)) sendR quitR
          mail_from rcpts data,
        p.2 = (code.getD (-1), msg.getD "ignore"))) ∧
    ((refusalKeys (_deliver (.ok ()) (.error (.smtpError code msg)) (.ok ())
        mail_from rcpts data)).Nodup ∧
      (∀ x, x ∈ refusalKeys (_deliver (.ok ()) (.error (.smtpError code msg))
          (.ok ()) mail_from rcpts data) ↔ x ∈ rcpts) ∧
      (∀ p ∈ _deliver (.ok ()) (.error (.smtpError code msg)) (.ok ())
          mail_from rcpts data,
        p.2 = (code.getD (-1), msg.getD "ignore"))) := by
  obtain ⟨b1, b2, b3⟩ :=
    allRefusedUpdate_spec code msg rcpts [] (by simp) (by simp [refusalKeys])
  constructor
  · refine ⟨b2, ?_, b1⟩
    intro x
    simpa [refusalKeys] using b3 x
  · refine ⟨b2, ?_, b1⟩
    intro x
    simpa [refusalKeys] using b3 x

/-- C3 witness: a connection failure exposing no code refuses both requested
recipients with the sentinel. -/
theorem c3_witness :
    "b@x.com" ∈ refusalKeys (_deliver (.error (.smtpError none none)) (.ok [])
      (.ok ()) "a@x.com" ["b@x.com", "c@x.com"] []) ∧
    ∀ p ∈ _deliver (.error (.smtpError none none)) (.ok []) (.ok ())
        "a@x.com" ["b@x.com", "c@x.com"] [],
      p.2 = ((-1 : Int), "ignore") := by
  have h := c3_general_failure_refusals ["b@x.com", "c@x.com"] none none
    (.ok []) (.ok ()) "a@x.com" []
  exact ⟨(h.1.2.1 "b@x.com").mpr (by decide), h.1.2.2⟩

/-- C4: when the upstream send call reports a partial per-recipient refusal,
the handler's refusal map is exactly that partial map - refused recipients
only, accepted recipients absent - and the handler returns normally.  Both
reporting paths are covered: `sendmail` returning the map, and
`SMTPRecipientsRefused` carrying it. -/
theorem c4_partial_refusal (m : RefMap) (rcpts : List String)
    (mail_from : String) (data : List Char) :
    _deliver (.ok ()) (.ok m) (.ok ()) mail_from rcpts data = m ∧
    _deliver (.ok ()) (.error (.recipientsRefused m)) (.ok ()) mail_from rcpts data = m ∧
    (∀ a, a ∉ refusalKeys m →
      a ∉ refusalKeys (_deliver (.ok ()) (.ok m) (.ok ()) mail_from rcpts data)) := by
  exact ⟨rfl, rfl, fun a ha => ha⟩

/-- C4 witness: recipients B and C refused out of requested A, B, C - the
map has exactly the B and C entries and the accepted A does not appear. -/
theorem c4_witness :
    _deliver (.ok ()) (.ok [("b@x.com", ((550 : Int), "No such user")),
        ("c@x.com", ((550 : Int), "No such user"))]) (.ok ())
      "a@x.com" ["a@x.com", "b@x.com", "c@x.com"] [] =
      [("b@x.com", ((550 : Int), "No such user")),
        ("c@x.com", ((550 : Int), "No such user"))] ∧
    "a@x.com" ∉ refusalKeys (_deliver (.ok ())
      (.ok [("b@x.com", ((550 : Int), "No such user")),
        ("c@x.com", ((550 : Int), "No such user"))]) (.ok ())
      "a@x.com" ["a@x.com", "b@x.com", "c@x.com"] []) := by
  have h := c4_partial_refusal
    [("b@x.com", ((550 : Int), "No such user")),
      ("c@x.com", ((550 : Int), "No such user"))]
    ["a@x.com", "b@x.com", "c@x.com"] "a@x.com" []
  exact ⟨h.1, h.2.2 "a@x.com" (by decide)⟩

/-- C5: the Relay inserts the synthetic `X-Peer` line at the index of the
first blank line (a line consisting solely of a recognized terminator); when
the content has no blank line the line is appended after the last line; and
the spec's concrete scenario holds verbatim. -/
theorem c5_insertion_position (host : String) (content : List Char) :
    (proxyScan (strSplitlines true content)).1 =
      (firstIdxP isBlankLine (strSplitlines true content)).getD
        (strSplitlines true content).length ∧
    (firstIdxP isBlankLine (strSplitlines true content) = none →
      proxy_rewrite host content = content ++ proxyHeaderLine host CRLFl) ∧
    proxy_rewrite "127.0.0.1" ("Subject: hi\r\n\r\nbody\r\n".data) =
      ("Subject: hi\r\nX-Peer: 127.0.0.1\r\n\r\nbody\r\n").data := by
  have hchar := proxyScan_char (strSplitlines true content) (strSplit_nlcre content)
  refine ⟨hchar.1, ?_, by decide⟩
  intro hnone
  have hi : (proxyScan (strSplitlines true content)).1 =
      (strSplitlines true content).length := by
    rw [hchar.1, hnone]
    rfl
  have he : (proxyScan (strSplitlines true content)).2 = CRLFl := by
    rw [hchar.2, hnone]
  rw [proxy_rewrite_eq, hi, he, List.take_length, List.drop_length,
    strSplitlines_flatten]
  simp

/-- C5 witness: headers-only content with no blank line - the synthetic line
is appended after the last line. -/
theorem c5_witness :
    firstIdxP isBlankLine (strSplitlines true ("Header: only".data)) = none ∧
    proxy_rewrite "10.0.0.1" ("Header: only".data) =
      ("Header: only".data) ++ proxyHeaderLine "10.0.0.1" CRLFl :=
  ⟨by decide,
    (c5_insertion_position "10.0.0.1" ("Header: only".data)).2.1 (by decide)⟩

/-- C6: the Debugging output has no options-summary lines and no separator
blank line exactly when the sender and all recipients carry empty options
lists; otherwise one summary line per such address is printed, followed by
the blank separator, before the message content. -/
theorem c6_options_block (s : Session) (e : Envelope) :
    (e.mail_from.options = [] ∧ (∀ r ∈ e.rcpt_tos, r.options = []) →
      debugging_handle_DATA s e = (_print_message_content s.peer e.content).map
        (fun content => "---------- MESSAGE FOLLOWS ----------"
          :: (content ++ ["------------ END MESSAGE ------------"]))) ∧
    debugging_handle_DATA s e = (_print_message_content s.peer e.content).map
      (fun content => "---------- MESSAGE FOLLOWS ----------"
        :: (debugSummaries e ++ (if hasOptions e then [""] else [])
            ++ content ++ ["------------ END MESSAGE ------------"])) ∧
    (debugSummaries e = [] ↔
      (e.mail_from.options = [] ∧ ∀ r ∈ e.rcpt_tos, r.options = [])) := by
  refine ⟨?_, debugging_handle_DATA_eq s e, ?_⟩
  · intro h
    have hO : hasOptions e = false := (hasOptions_false_iff e).mpr h
    have hS : debugSummaries e = [] := (debugSummaries_nil_iff e).mpr hO
    rw [debugging_handle_DATA_eq s e, hS, hO]
    simp
  · rw [debugSummaries_nil_iff]
    exact hasOptions_false_iff e

/-- C6 witness: a transaction with all options lists empty prints only the
banner, the content and the end banner. -/
theorem c6_witness :
    debugging_handle_DATA ⟨("127.0.0.1", 2500)⟩
      ⟨⟨"a@x.com", []⟩, [⟨"b@x.com", []⟩], .str ("T: v\n\nbody".data)⟩ =
      some ["---------- MESSAGE FOLLOWS ----------", "T: v",
        "X-Peer: ('127.0.0.1', 2500)", "", "body",
        "------------ END MESSAGE ------------"] := by
  have h := (c6_options_block ⟨("127.0.0.1", 2500)⟩
    ⟨⟨"a@x.com", []⟩, [⟨"b@x.com", []⟩], .str ("T: v\n\nbody".data)⟩).1
    ⟨rfl, by simp⟩
  rw [h]
  decide

/-- C7: when the content (bytes or text) has a blank line, the Debugging
handler prints every content line, decoded, with the single synthetic peer
line inserted directly above the first blank line. -/
theorem c7_peer_line_before_first_blank (peer : Peer) (b : List Nat)
    (s : List Char) (j k : Nat) :
    (firstIdxP (fun l => l.isEmpty) (bytesSplitlines false b) = some j →
      _print_message_content peer (.bytes b) =
        some (((bytesSplitlines false b).take j).map decodeBytes
          ++ _format_peer peer
            :: ((bytesSplitlines false b).drop j).map decodeBytes)) ∧
    (firstIdxP (fun l => l.isEmpty) (strSplitlines false s) = some k →
      _print_message_content peer (.str s) =
        some (((strSplitlines false s).take k).map (fun l => String.mk l)
          ++ _format_peer peer
            :: ((strSplitlines false s).drop k).map (fun l => String.mk l))) := by
  constructor
  · intro h
    simp only [_print_message_content]
    rw [printLoop_some _ _ _ _ j h]
  · intro h
    simp only [_print_message_content]
    rw [printLoop_some _ _ _ _ k h]

/-- C7 witness: at concrete bytes and text contents with a blank line, the
peer line appears directly above the first blank line. -/
theorem c7_witness :
    _print_message_content ("::1", 8025) (.bytes [72, 10, 10, 66]) =
      some ["H", "X-Peer: ('::1', 8025)", "", "B"] ∧
    _print_message_content ("::1", 8025) (.str ("A\n\nB".data)) =
      some ["A", "X-Peer: ('::1', 8025)", "", "B"] := by
  have h := c7_peer_line_before_first_blank ("::1", 8025) [72, 10, 10, 66]
    ("A\n\nB".data) 1 1
  constructor
  · rw [h.1 (by decide)]
    decide
  · rw [h.2 (by decide)]
    decide

/-- C8: the claim states that non-bytes/non-text content makes
`prepare_message` fail fast with a contract violation (true: the assertion
fires before anything else), and that bytes or text content parses and
returns normally (false in the code: the `rcpttos` attribute access at line
167 raises `AttributeError` after parsing, so `prepare_message` never returns
normally).  This theorem evaluates both halves. -/
theorem c8_content_contract :
    prepare_message ⟨("10.0.0.5", 3025)⟩
      ⟨⟨"s@y.org", []⟩, [⟨"t@y.org", []⟩], .other "<class 'int'>"⟩ =
      .error (.assertionError "Expected str or bytes, got <class 'int'>") ∧
    prepare_message ⟨("10.0.0.5", 3025)⟩
      ⟨⟨"s@y.org", []⟩, [⟨"t@y.org", []⟩], .bytes [72, 105, 10]⟩ =
      .error (.attributeError "rcpttos") := by
  exact ⟨rfl, rfl⟩

/-- C9 (amended): the three `X-Peer` renderings are produced exactly as the
code writes them, and the Relay's host-only rendering is distinct from the
other two; but the Debugging banner and the message-pipeline rendering
coincide textually for every peer, because Python `str` of a tuple falls back
to `repr`. -/
theorem c9_renderings_amended (p : Peer) (host : String) (ending : List Char) :
    _format_peer p = "X-Peer: " ++ pyReprPeer p ∧
    pyStrPeer p = pyReprPeer p ∧
    proxyHeaderLine host ending = ("X-Peer: " ++ host).data ++ ending ∧
    _format_peer p = "X-Peer: " ++ pyStrPeer p ∧
    (ending = CRLFl ∨ ending = ['\r'] ∨ ending = ['\n'] →
      proxyHeaderLine host ending ≠ (_format_peer p).data) := by
  refine ⟨rfl, rfl, rfl, rfl, ?_⟩
  intro he heq
  have h1 : (proxyHeaderLine host ending).getLast? = some '\r' ∨
      (proxyHeaderLine host ending).getLast? = some '\n' := by
    rcases he with h | h | h <;> subst h
    · right
      unfold proxyHeaderLine CRLFl
      rw [show ("X-Peer: " ++ host).data ++ ['\r', '\n'] =
        (("X-Peer: " ++ host).data ++ ['\r']) ++ ['\n'] by simp]
      exact List.getLast?_concat _
    · left
      exact List.getLast?_concat _
    · right
      exact List.getLast?_concat _
  have h2 : ((_format_peer p).data).getLast? = some ')' := by
    show ((("X-Peer: " : String) ++ pyReprPeer p).data).getLast? = some ')'
    rw [String.data_append]
    unfold pyReprPeer
    rw [String.data_append]
    rw [show ((")" : String)).data = [')'] from rfl]
    rw [← List.append_assoc]
    exact List.getLast?_concat _
  rw [heq, h2] at h1
  rcases h1 with h | h <;> simp at h

/-- C9 witness: the Relay line with the `CRLF` terminator differs from the
Debugging banner at a concrete peer. -/
theorem c9_witness :
    proxyHeaderLine "relay.example.com" CRLFl ≠
      (_format_peer ("127.0.0.1", 2500)).data :=
  (c9_renderings_amended ("127.0.0.1", 2500) "relay.example.com" CRLFl).2.2.2.2
    (Or.inl rfl)

/-- C9 counterexample: at a concrete peer, the Debugging banner
`'X-Peer: {!r}'.format(peer)` coincides textually with the message-pipeline
rendering `"X-Peer: " + str(peer)` - refuting the claim that the three
renderings are pairwise distinct. -/
theorem c9_counterexample :
    _format_peer ("127.0.0.1", 2500) =
      "X-Peer: " ++ pyStrPeer ("127.0.0.1", 2500) := by
  decide

/-- C10: when the content has no blank line at all, the Debugging handler
prints every content line but never the synthetic peer line; in general the
number of printed lines exceeds the number of content lines by one exactly
when a blank line exists. -/
theorem c10_no_blank_no_peer_line (peer : Peer) (b : List Nat) (s : List Char) :
    (firstIdxP (fun l => l.isEmpty) (bytesSplitlines false b) = none →
      _print_message_content peer (.bytes b) =
        some ((bytesSplitlines false b).map decodeBytes)) ∧
    (firstIdxP (fun l => l.isEmpty) (strSplitlines false s) = none →
      _print_message_content peer (.str s) =
        some ((strSplitlines false s).map (fun l => String.mk l))) ∧
    ((_print_message_content peer (.bytes b)).getD []).length =
      (bytesSplitlines false b).length +
        (match firstIdxP (fun l => l.isEmpty) (bytesSplitlines false b) with
          | some _ => 1
          | none => 0) ∧
    ((_print_message_content peer (.str s)).getD []).length =
      (strSplitlines false s).length +
        (match firstIdxP (fun l => l.isEmpty) (strSplitlines false s) with
          | some _ => 1
          | none => 0) := by
  refine ⟨?_, ?_, ?_, ?_⟩
  · intro h
    simp only [_print_message_content]
    rw [printLoop_none _ _ _ _ h]
  · intro h
    simp only [_print_message_content]
    rw [printLoop_none _ _ _ _ h]
  · simp only [_print_message_content]
    rw [Option.getD_some]
    exact printLoop_length _ _ _ _
  · simp only [_print_message_content]
    rw [Option.getD_some]
    exact printLoop_length _ _ _ _

/-- C10 witness: concrete contents without a blank line print exactly the
content lines and nothing else. -/
theorem c10_witness :
    _print_message_content ("10.1.1.1", 25) (.bytes [72, 105]) = some ["Hi"] ∧
    _print_message_content ("10.1.1.1", 25) (.str ("Hi\nthere".data)) =
      some ["Hi", "there"] := by
  have h := c10_no_blank_no_peer_line ("10.1.1.1", 25) [72, 105]
    ("Hi\nthere".data)
  constructor
  · rw [h.1 (by decide)]
    decide
  · rw [h.2.1 (by decide)]
    decide

end Handlers
